import Mathlib

/-!
Shallow embedding of the Django-Demo-Book-Hub data and query layer
(src/hub/core/models.py, src/hub/core/views.py, src/hub/core/forms.py).

Entities are records, the relational store is a record of lists, and each
model method / view handler becomes a Lean function on the store.  Ratings
are integers; averages are exact rationals, with Python's `round(_, 2)`
modelled as round-half-even at two decimal places.
-/

namespace BookHub

abbrev UserId := Nat
abbrev AuthorId := Nat
abbrev BookId := Nat
abbrev ListId := Nat
abbrev ReviewId := Nat

/-- `Author` model (models.py): name, bio, birth date (the latter two play
no role in any claim and are kept as plain data). -/
structure Author where
  id : AuthorId
  name : String
  bio : String
  deriving DecidableEq, Repr

/-- `Book` model (models.py): title, FK to Author (CASCADE), unique isbn,
publication year. -/
structure Book where
  id : BookId
  title : String
  author : AuthorId
  isbn : String
  publication_year : Int
  deriving DecidableEq, Repr

/-- `Review` model (models.py): FK to Book (CASCADE), FK to User (CASCADE),
integer rating, review text; `unique_together = [book, user]`. -/
structure Review where
  id : ReviewId
  book : BookId
  user : UserId
  rating : Int
  review_text : String
  deriving DecidableEq, Repr

/-- `ReadingList` model (models.py): name, owning user (CASCADE), many-to-many
books, is_public flag (default True). -/
structure ReadingList where
  id : ListId
  name : String
  user : UserId
  books : List BookId
  is_public : Bool
  deriving DecidableEq, Repr

/-- The relational store: one table per model, plus the framework User table
(only identities matter here). -/
structure Store where
  users : List UserId
  authors : List Author
  books : List Book
  reviews : List Review
  readingLists : List ReadingList
  deriving DecidableEq, Repr

/-- `Review.RATING_CHOICES` (models.py): the admissible rating values 1..5. -/
def RATING_CHOICES : List Int := [1, 2, 3, 4, 5]

/-- Python's banker's rounding of a rational to the nearest integer:
ties go to the even integer (semantics of built-in `round`). -/
def roundHalfEven (q : ℚ) : ℤ :=
  if q - (⌊q⌋ : ℚ) < 1/2 then ⌊q⌋
  else if 1/2 < q - (⌊q⌋ : ℚ) then ⌊q⌋ + 1
  else if Even ⌊q⌋ then ⌊q⌋ else ⌊q⌋ + 1

/-- `round(q, 2)` in Python: round-half-even at two decimal places. -/
def round2 (q : ℚ) : ℚ := ((roundHalfEven (100 * q) : ℤ) : ℚ) / 100

/-- The ratings of all reviews of book `b` (the `reviews` related set). -/
def bookRatings (s : Store) (b : BookId) : List Int :=
  (s.reviews.filter (fun r => r.book = b)).map Review.rating

/-- `Book.average_rating` (models.py):
`avg = self.reviews.aggregate(Avg('rating'))['rating__avg']`
(`None` when the book has no reviews), then
`return round(avg, 2) if avg else 0` — both `None` and an average of `0`
are falsy and yield `0`. -/
def average_rating (s : Store) (b : BookId) : ℚ :=
  if (bookRatings s b).isEmpty then 0
  else if ((bookRatings s b).sum : ℚ) / ((bookRatings s b).length : ℚ) = 0 then 0
  else round2 (((bookRatings s b).sum : ℚ) / ((bookRatings s b).length : ℚ))

/-- `Book.review_count` (models.py): `self.reviews.count()`. -/
def review_count (s : Store) (b : BookId) : Nat :=
  (s.reviews.filter (fun r => r.book = b)).length

/-- The SQL aggregate `Avg('reviews__rating')` used by the manager:
`NULL` (`none`) when the book has no reviews, else the exact mean. -/
def avgAgg (s : Store) (b : BookId) : Option ℚ :=
  if (bookRatings s b).isEmpty then none
  else some (((bookRatings s b).sum : ℚ) / ((bookRatings s b).length : ℚ))

/-- `BookManager.highly_rated` (models.py):
`self.annotate(avg_rating=Avg('reviews__rating')).filter(avg_rating__gte=min_rating)`.
A `NULL` annotation (zero reviews) never satisfies `gte`. -/
def highly_rated (s : Store) (min_rating : ℚ) : List Book :=
  s.books.filter (fun b =>
    match avgAgg s b.id with
    | none => false
    | some a => decide (min_rating ≤ a))

/-- `BookManager.published` (models.py): `return self.all()`. -/
def published (s : Store) : List Book :=
  s.books

/-- The data bound by `ReviewForm` (forms.py): only `rating` and
`review_text` come from the user. -/
structure ReviewFormData where
  rating : Int
  review_text : String
  deriving DecidableEq, Repr

/-- `ReviewForm.is_valid()` (forms.py): the rating must be one of
`RATING_CHOICES` and the review text is a required field (non-empty). -/
def reviewFormValid (d : ReviewFormData) : Bool :=
  RATING_CHOICES.contains d.rating && !(d.review_text = "")

/-- Outcome of the `add_review` view. -/
inductive AddReviewResult where
  | notFound
  | invalidForm
  | uniquenessViolation
  | success
  deriving DecidableEq, Repr

/-- `add_review` view (views.py, POST branch): 404 if the book does not
exist; re-render if the form is invalid; otherwise save the review with
the book and the logged-in user attached.  The save hits the store-level
`unique_together = [book, user]` constraint: a duplicate pair is rejected
and the store is left unchanged. -/
def add_review (s : Store) (newId : ReviewId) (u : UserId) (bid : BookId)
    (d : ReviewFormData) : AddReviewResult × Store :=
  if (s.books.filter (fun b => b.id = bid)).isEmpty then (.notFound, s)
  else if !(reviewFormValid d) then (.invalidForm, s)
  else if (s.reviews.filter (fun r => r.book = bid && r.user = u)).isEmpty then
    (.success, { s with reviews :=
      s.reviews ++ [⟨newId, bid, u, d.rating, d.review_text⟩] })
  else (.uniquenessViolation, s)

/-- `ReadingListView.get_queryset` (views.py):
`ReadingList.objects.filter(user=self.request.user)`. -/
def reading_lists_view (s : Store) (u : UserId) : List ReadingList :=
  s.readingLists.filter (fun l => l.user = u)

/-- The POST data of `add_to_reading_list` (views.py): `request.POST.get`
returns `None` when absent; the empty string is falsy like `None`, so both
fields are modelled as options with `some ""` still falsy. -/
structure AddToListRequest where
  reading_list : Option ListId
  new_list_name : Option String
  deriving DecidableEq, Repr

/-- Outcome of the `add_to_reading_list` view. -/
inductive AddToListResult where
  | notFoundBook
  | notFoundList
  | redirectToBook (b : BookId)
  deriving DecidableEq, Repr

/-- `ReadingList.books.add(book)` : many-to-many add, a no-op when the book
is already in the list. -/
def addBookToList (l : ReadingList) (b : BookId) : ReadingList :=
  if b ∈ l.books then l else { l with books := l.books ++ [b] }

/-- `add_to_reading_list` view (views.py, POST branch): 404 if the book
does not exist; if a list id is supplied,
`get_object_or_404(ReadingList, pk=reading_list_id, user=request.user)`
404s unless a list with that id owned by the requester exists, else the
book is added to it; otherwise a non-empty `new_list_name` creates a fresh
list owned by the requester containing the book (is_public defaults to
True); supplying neither does nothing.  All non-404 paths redirect to the
book's detail page. -/
def add_to_reading_list (s : Store) (newListId : ListId) (u : UserId)
    (bid : BookId) (req : AddToListRequest) : AddToListResult × Store :=
  if (s.books.filter (fun b => b.id = bid)).isEmpty then (.notFoundBook, s)
  else
    match req.reading_list with
    | some lid =>
        if (s.readingLists.filter (fun l => l.id = lid && l.user = u)).isEmpty
        then (.notFoundList, s)
        else (.redirectToBook bid,
          { s with readingLists := s.readingLists.map (fun l =>
              if l.id = lid && l.user = u then addBookToList l bid else l) })
    | none =>
        match req.new_list_name with
        | some n =>
            if n = "" then (.redirectToBook bid, s)
            else (.redirectToBook bid,
              { s with readingLists :=
                  s.readingLists ++ [⟨newListId, n, u, [bid], true⟩] })
        | none => (.redirectToBook bid, s)

/-- Deleting a `Book` (models.py FKs): its reviews cascade
(`Review.book` is CASCADE) and the many-to-many rows linking it to
reading lists are removed. -/
def delete_book (s : Store) (bid : BookId) : Store :=
  { s with
    books := s.books.filter (fun b => !(b.id = bid)),
    reviews := s.reviews.filter (fun r => !(r.book = bid)),
    readingLists := s.readingLists.map (fun l =>
      { l with books := l.books.filter (fun b => !(b = bid)) }) }

/-- Deleting an `Author` (models.py FKs): its books cascade
(`Book.author` is CASCADE), which in turn cascades to those books'
reviews and removes them from every reading list. -/
def delete_author (s : Store) (aid : AuthorId) : Store :=
  let doomed := (s.books.filter (fun b => b.author = aid)).map Book.id
  { s with
    authors := s.authors.filter (fun a => !(a.id = aid)),
    books := s.books.filter (fun b => !(b.author = aid)),
    reviews := s.reviews.filter (fun r => !(doomed.contains r.book)),
    readingLists := s.readingLists.map (fun l =>
      { l with books := l.books.filter (fun b => !(doomed.contains b)) }) }

/-- Deleting a `User` (models.py FKs): their reviews cascade
(`Review.user` is CASCADE) and their reading lists cascade
(`ReadingList.user` is CASCADE). -/
def delete_user (s : Store) (u : UserId) : Store :=
  { s with
    users := s.users.filter (fun v => !(v = u)),
    reviews := s.reviews.filter (fun r => !(r.user = u)),
    readingLists := s.readingLists.filter (fun l => !(l.user = u)) }

/-- Django's `Paginator`: page `n` (1-based) of `xs` at `per_page` items
per page is the slice `xs[(n-1)*per_page : n*per_page]`. -/
def paginate {α : Type} (per_page : Nat) (xs : List α) (page : Nat) : List α :=
  (xs.drop ((page - 1) * per_page)).take per_page

/-- `BookListView` (views.py): `paginate_by = 12` over all books. -/
def book_list_page (s : Store) (page : Nat) : List Book :=
  paginate 12 s.books page

/-- `AuthorListView` (views.py): `paginate_by = 20` over all authors. -/
def author_list_page (s : Store) (page : Nat) : List Author :=
  paginate 20 s.authors page

/-- No review row shares its `(book, user)` pair with another: the
`unique_together` invariant. -/
def pairUnique (s : Store) : Prop :=
  (s.reviews.map (fun r => (r.book, r.user))).Nodup

/-- No dangling foreign keys: every `Book.author`, `Review.book`,
`Review.user`, `ReadingList.user` and reading-list book entry refers to a
row that exists. -/
def noDangling (s : Store) : Prop :=
  (∀ b ∈ s.books, ∃ a ∈ s.authors, a.id = b.author) ∧
  (∀ r ∈ s.reviews, ∃ b ∈ s.books, b.id = r.book) ∧
  (∀ r ∈ s.reviews, r.user ∈ s.users) ∧
  (∀ l ∈ s.readingLists, l.user ∈ s.users) ∧
  (∀ l ∈ s.readingLists, ∀ bid ∈ l.books, ∃ b ∈ s.books, b.id = bid)

instance (s : Store) : Decidable (pairUnique s) := by
  unfold pairUnique; infer_instance

instance (s : Store) : Decidable (noDangling s) := by
  unfold noDangling; infer_instance

/-! Concrete stores used as witnesses and counterexample inputs. -/

/-- A sample book, id 1, written by author 1. -/
def exBook : Book := ⟨1, "Title X", 1, "1111111111111", 2020⟩

/-- Store with one book whose two reviews have ratings 3 and 5. -/
def exStore35 : Store :=
  { users := [1, 2], authors := [⟨1, "A. Writer", ""⟩],
    books := [exBook],
    reviews := [⟨1, 1, 1, 3, "good"⟩, ⟨2, 1, 2, 5, "great"⟩],
    readingLists := [] }

/-- Store with one book and no reviews at all. -/
def exStoreNoReviews : Store :=
  { users := [1], authors := [⟨1, "A. Writer", ""⟩],
    books := [exBook],
    reviews := [],
    readingLists := [] }

/-- Store with one book and seven reviews, six rating 4 and one rating 3:
the exact mean is 27/7 ≈ 3.857 while `average_rating` displays 3.86. -/
def exStoreC2 : Store :=
  { users := [1, 2, 3, 4, 5, 6, 7], authors := [⟨1, "A. Writer", ""⟩],
    books := [exBook],
    reviews := [⟨1, 1, 1, 4, "r"⟩, ⟨2, 1, 2, 4, "r"⟩, ⟨3, 1, 3, 4, "r"⟩,
                ⟨4, 1, 4, 4, "r"⟩, ⟨5, 1, 5, 4, "r"⟩, ⟨6, 1, 6, 4, "r"⟩,
                ⟨7, 1, 7, 3, "r"⟩],
    readingLists := [] }

/-- An existing review by user 7 on book 1. -/
def exReviewFirst : Review := ⟨1, 1, 7, 5, "first thoughts"⟩

/-- Store in which user 7 has already reviewed book 1. -/
def exStoreC3 : Store :=
  { users := [7, 8], authors := [⟨1, "A. Writer", ""⟩],
    books := [exBook],
    reviews := [exReviewFirst],
    readingLists := [] }

/-- A public reading list owned by user 2. -/
def exListOfB : ReadingList := ⟨1, "list of B", 2, [], true⟩

/-- Store containing only user 2's public reading list. -/
def exStoreC4 : Store :=
  { users := [1, 2], authors := [], books := [], reviews := [],
    readingLists := [exListOfB] }

/-- Store with one book and one reading list (id 5) owned by user 9. -/
def exStoreC5 : Store :=
  { users := [1, 9], authors := [⟨1, "A. Writer", ""⟩],
    books := [exBook],
    reviews := [],
    readingLists := [⟨5, "theirs", 9, [], true⟩] }

/-! Helper lemmas. -/

lemma roundHalfEven_ge (q : ℚ) (a : ℤ) (h : (a : ℚ) ≤ q) : a ≤ roundHalfEven q := by
  have hf : a ≤ ⌊q⌋ := Int.le_floor.mpr h
  unfold roundHalfEven
  split_ifs <;> omega

lemma roundHalfEven_le (q : ℚ) (b : ℤ) (h : q ≤ (b : ℚ)) : roundHalfEven q ≤ b := by
  have hfb : ⌊q⌋ ≤ b := by
    have := le_trans (Int.floor_le q) h
    exact_mod_cast this
  unfold roundHalfEven
  split_ifs with h1 h2 h3
  · exact hfb
  · have hq : (⌊q⌋ : ℚ) + 1/2 < q := by linarith
    have hlt : (⌊q⌋ : ℚ) < (b : ℚ) := by linarith
    have : ⌊q⌋ < b := by exact_mod_cast hlt
    omega
  · exact hfb
  · have hq : (⌊q⌋ : ℚ) + 1/2 ≤ q := by
      push_neg at h1
      linarith
    have hlt : (⌊q⌋ : ℚ) < (b : ℚ) := by linarith
    have : ⌊q⌋ < b := by exact_mod_cast hlt
    omega

lemma round2_bounds (q : ℚ) (a b : ℤ) (ha : (a : ℚ) ≤ q) (hb : q ≤ (b : ℚ)) :
    (a : ℚ) ≤ round2 q ∧ round2 q ≤ (b : ℚ) := by
  have h1 : (100 * a : ℤ) ≤ roundHalfEven (100 * q) := by
    apply roundHalfEven_ge
    push_cast
    linarith
  have h2 : roundHalfEven (100 * q) ≤ (100 * b : ℤ) := by
    apply roundHalfEven_le
    push_cast
    linarith
  have h1' : ((100 * a : ℤ) : ℚ) ≤ ((roundHalfEven (100 * q) : ℤ) : ℚ) := by
    exact_mod_cast h1
  have h2' : ((roundHalfEven (100 * q) : ℤ) : ℚ) ≤ ((100 * b : ℤ) : ℚ) := by
    exact_mod_cast h2
  push_cast at h1' h2'
  unfold round2
  constructor
  · linarith
  · linarith

lemma roundHalfEven_intCast (n : ℤ) : roundHalfEven ((n : ℤ) : ℚ) = n := by
  unfold roundHalfEven
  rw [Int.floor_intCast]
  norm_num

lemma round2_int (n : ℤ) : round2 ((n : ℤ) : ℚ) = (n : ℚ) := by
  unfold round2
  have : (100 : ℚ) * (n : ℚ) = ((100 * n : ℤ) : ℚ) := by push_cast; ring
  rw [this, roundHalfEven_intCast]
  push_cast
  ring

lemma round2_zero : round2 0 = 0 := by
  have := round2_int 0
  simpa using this

lemma review_count_eq_length (s : Store) (b : BookId) :
    review_count s b = (bookRatings s b).length := by
  unfold review_count bookRatings
  rw [List.length_map]

lemma average_rating_eq (s : Store) (b : BookId) (h : bookRatings s b ≠ []) :
    average_rating s b =
      round2 (((bookRatings s b).sum : ℚ) / ((bookRatings s b).length : ℚ)) := by
  unfold average_rating
  rw [if_neg (by simpa [List.isEmpty_iff] using h)]
  by_cases h0 : ((bookRatings s b).sum : ℚ) / ((bookRatings s b).length : ℚ) = 0
  · rw [if_pos h0, h0, round2_zero]
  · rw [if_neg h0]

/-! Claim theorems. -/

/-- Claim C1: `average_rating` returns 0 for a book with no reviews (and
`review_count` returns 0 there), and otherwise returns the arithmetic mean
of the book's review ratings rounded to two decimal places; in particular
ratings `[3, 5]` give 4. -/
theorem C1_average_rating_spec (s : Store) (b : BookId) :
    (bookRatings s b = [] → average_rating s b = 0 ∧ review_count s b = 0) ∧
    (bookRatings s b ≠ [] →
      average_rating s b =
        round2 (((bookRatings s b).sum : ℚ) / ((bookRatings s b).length : ℚ))) ∧
    (bookRatings s b = [3, 5] → average_rating s b = 4) := by
  refine ⟨fun h => ⟨?_, ?_⟩, fun h => average_rating_eq s b h, fun h => ?_⟩
  · unfold average_rating
    rw [if_pos (by simp [h])]
  · rw [review_count_eq_length, h]
    rfl
  · have h2 := average_rating_eq s b (by rw [h]; simp)
    rw [h] at h2
    norm_num at h2
    have h4 := round2_int 4
    norm_num at h4
    rw [h2, h4]

/-- Witness for C1: concrete stores with ratings `[3, 5]` and with no
reviews at all. -/
theorem C1_average_rating_spec_witness :
    average_rating exStore35 1 = 4 ∧
    (average_rating exStoreNoReviews 1 = 0 ∧ review_count exStoreNoReviews 1 = 0) :=
  ⟨(C1_average_rating_spec exStore35 1).2.2 rfl,
   (C1_average_rating_spec exStoreNoReviews 1).1 rfl⟩

/-- Claim C8: the book listing shows at most 12 books per page and the
author listing at most 20 authors per page, for every requested page and
every store. -/
theorem C8_pagination_limits (s : Store) (page : Nat) :
    (book_list_page s page).length ≤ 12 ∧ (author_list_page s page).length ≤ 20 := by
  constructor <;> · simp only [book_list_page, author_list_page, paginate, List.length_take]
                    omega

/-- Claim C10: `BookManager.published` applies no filtering: it returns the
full book collection in every store state. -/
theorem C10_published_is_all (s : Store) : published s = s.books := rfl

lemma exStoreC2_avg : average_rating exStoreC2 1 = 193/50 := by
  simp [average_rating, bookRatings, exStoreC2, List.filter, round2, roundHalfEven]
  rw [Int.fract]
  norm_num

lemma exStoreC2_highly_rated : highly_rated exStoreC2 (386/100) = [] := by
  simp [highly_rated, avgAgg, bookRatings, exStoreC2, exBook, List.filter]
  norm_num

/-- Claim C2 (amended): `highly_rated(min_rating)` returns exactly the books
with at least one review whose exact (unrounded) mean rating is at least
`min_rating`; every zero-review book is excluded for every `min_rating`,
including non-positive ones. -/
theorem C2_highly_rated_spec (s : Store) (m : ℚ) (b : Book) :
    b ∈ highly_rated s m ↔
      b ∈ s.books ∧ bookRatings s b.id ≠ [] ∧
        m ≤ ((bookRatings s b.id).sum : ℚ) / ((bookRatings s b.id).length : ℚ) := by
  unfold highly_rated
  rw [List.mem_filter]
  by_cases h : (bookRatings s b.id).isEmpty
  · have h' := List.isEmpty_iff.mp h
    simp [avgAgg, h, h']
  · have h' : bookRatings s b.id ≠ [] := by simpa [List.isEmpty_iff] using h
    simp [avgAgg, h, h']

/-- Counterexample to Claim C2 as stated: with seven reviews of ratings
`[4,4,4,4,4,4,3]` the rounded `average_rating` is `3.86 ≥ 3.86`, yet the
manager filters on the unrounded mean `27/7 < 3.86` and excludes the book,
so membership in `highly_rated` is not equivalent to the rounded average
clearing the threshold. -/
theorem C2_highly_rated_counterexample :
    ¬ (exBook ∈ highly_rated exStoreC2 (386/100) ↔
       (exBook ∈ exStoreC2.books ∧ bookRatings exStoreC2 exBook.id ≠ [] ∧
         386/100 ≤ average_rating exStoreC2 exBook.id)) := by
  intro hiff
  have hmem : exBook ∈ highly_rated exStoreC2 (386/100) := by
    apply hiff.mpr
    refine ⟨by simp [exStoreC2], by decide, ?_⟩
    rw [show exBook.id = 1 from rfl, exStoreC2_avg]
    norm_num
  rw [exStoreC2_highly_rated] at hmem
  cases hmem

lemma add_review_pairUnique (s : Store) (nid : ReviewId) (u : UserId) (bid : BookId)
    (d : ReviewFormData) (h : pairUnique s) : pairUnique (add_review s nid u bid d).2 := by
  unfold add_review
  split_ifs with h1 h2 h3
  · exact h
  · exact h
  · unfold pairUnique at h ⊢
    simp only [List.map_append, List.map_cons, List.map_nil]
    rw [List.nodup_append]
    refine ⟨h, List.nodup_singleton _, ?_⟩
    intro p hp hp1
    simp only [List.mem_singleton] at hp1
    obtain ⟨r, hr, hpr⟩ := List.mem_map.mp hp
    have hrfil : r ∈ s.reviews.filter (fun r => r.book = bid && r.user = u) := by
      refine List.mem_filter.mpr ⟨hr, ?_⟩
      have hb : r.book = bid := by
        have := congrArg Prod.fst (hpr.trans hp1)
        simpa using this
      have hu : r.user = u := by
        have := congrArg Prod.snd (hpr.trans hp1)
        simpa using this
      simp [hb, hu]
    rw [List.isEmpty_iff.mp h3] at hrfil
    cases hrfil
  · exact h

lemma exists_book_of_filter_ne (s : Store) (bid : BookId)
    (h : ¬(s.books.filter (fun b => b.id = bid)).isEmpty = true) :
    ∃ bk ∈ s.books, bk.id = bid := by
  rw [List.isEmpty_iff] at h
  obtain ⟨bk, hbk⟩ := List.exists_mem_of_ne_nil _ h
  have hm := List.mem_filter.mp hbk
  exact ⟨bk, hm.1, by simpa using hm.2⟩

lemma filter_not_isEmpty_of_mem {α : Type} {l : List α} {p : α → Bool} {a : α}
    (ha : a ∈ l) (hp : p a = true) : ¬(l.filter p).isEmpty = true := by
  intro hemp
  have : a ∈ l.filter p := List.mem_filter.mpr ⟨ha, hp⟩
  rw [List.isEmpty_iff.mp hemp] at this
  cases this

/-- Claim C3: a second review for an existing `(book, user)` pair fails with
a uniqueness violation, leaves the store (hence the first review) unchanged,
and `add_review` preserves the at-most-one-review-per-pair invariant. -/
theorem C3_review_unique_spec (s : Store) (nid : ReviewId) (u : UserId) (bid : BookId)
    (d : ReviewFormData) (r₀ : Review)
    (hbook : ∃ bk ∈ s.books, bk.id = bid)
    (hvalid : reviewFormValid d = true)
    (hr : r₀ ∈ s.reviews) (hrb : r₀.book = bid) (hru : r₀.user = u) :
    add_review s nid u bid d = (.uniquenessViolation, s) ∧
    r₀ ∈ (add_review s nid u bid d).2.reviews ∧
    (∀ s' nid' u' bid' d', pairUnique s' →
      pairUnique (add_review s' nid' u' bid' d').2) := by
  obtain ⟨bk, hbk, hbkid⟩ := hbook
  have hb' : ¬(s.books.filter (fun b => b.id = bid)).isEmpty = true :=
    filter_not_isEmpty_of_mem hbk (by simp [hbkid])
  have hdup : ¬(s.reviews.filter (fun r => r.book = bid && r.user = u)).isEmpty = true :=
    filter_not_isEmpty_of_mem hr (by simp [hrb, hru])
  have heq : add_review s nid u bid d = (.uniquenessViolation, s) := by
    unfold add_review
    rw [if_neg hb', if_neg (by simp [hvalid]), if_neg hdup]
  refine ⟨heq, by rw [heq]; exact hr, ?_⟩
  intro s' nid' u' bid' d' hpu
  exact add_review_pairUnique s' nid' u' bid' d' hpu

/-- Witness for C3: user 7 already reviewed book 1; the second valid
submission is rejected and the store is unchanged. -/
theorem C3_review_unique_spec_witness :
    add_review exStoreC3 2 7 1 ⟨4, "again"⟩ = (.uniquenessViolation, exStoreC3) :=
  (C3_review_unique_spec exStoreC3 2 7 1 ⟨4, "again"⟩ exReviewFirst
    ⟨exBook, by simp [exStoreC3], rfl⟩ (by decide)
    (by simp [exStoreC3]) rfl rfl).1

/-- Claim C4: listing reading lists as user `A` yields only lists owned by
`A`; a list owned by a different user `B` is never returned, whatever its
`is_public` flag. -/
theorem C4_reading_lists_owner_spec (s : Store) (A B : UserId) (l : ReadingList)
    (hAB : A ≠ B) :
    (∀ l' ∈ reading_lists_view s A, l'.user = A) ∧
    (l.user = B → l ∉ reading_lists_view s A) := by
  constructor
  · intro l' hl'
    have := (List.mem_filter.mp hl').2
    simpa using this
  · intro hB hmem
    have hA : l.user = A := by
      have := (List.mem_filter.mp hmem).2
      simpa using this
    rw [hB] at hA
    exact hAB hA.symm

/-- Witness for C4: user 1 requests the listing; user 2's public list is not
returned. -/
theorem C4_reading_lists_owner_spec_witness :
    exListOfB ∉ reading_lists_view exStoreC4 1 :=
  (C4_reading_lists_owner_spec exStoreC4 1 2 exListOfB (by decide)).2 rfl

lemma mem_addBookToList (l : ReadingList) (b : BookId) : b ∈ (addBookToList l b).books := by
  unfold addBookToList
  split_ifs with h
  · exact h
  · simp

/-- Claim C5: with an existing list id, the operation 404s when no list with
that id is owned by the requester (the store untouched); when the requester
owns it, the book is added to that list and the response redirects to the
book's detail page; with neither an id nor a new name (absent or empty),
nothing changes and the response still redirects to the book's detail
page. -/
theorem C5_add_to_list_spec (s : Store) (nl : ListId) (u : UserId) (bid : BookId)
    (lid : ListId)
    (hbook : ∃ bk ∈ s.books, bk.id = bid) :
    ((∀ l ∈ s.readingLists, l.id = lid → l.user ≠ u) →
      add_to_reading_list s nl u bid ⟨some lid, none⟩ = (.notFoundList, s)) ∧
    (∀ l ∈ s.readingLists, l.id = lid → l.user = u →
      (add_to_reading_list s nl u bid ⟨some lid, none⟩).1 = .redirectToBook bid ∧
      addBookToList l bid ∈ (add_to_reading_list s nl u bid ⟨some lid, none⟩).2.readingLists ∧
      bid ∈ (addBookToList l bid).books) ∧
    add_to_reading_list s nl u bid ⟨none, none⟩ = (.redirectToBook bid, s) ∧
    add_to_reading_list s nl u bid ⟨none, some ""⟩ = (.redirectToBook bid, s) := by
  obtain ⟨bk, hbk, hbkid⟩ := hbook
  have hb' : ¬(s.books.filter (fun b => b.id = bid)).isEmpty = true :=
    filter_not_isEmpty_of_mem hbk (by simp [hbkid])
  refine ⟨?_, ?_, ?_, ?_⟩
  · intro hnotowner
    have hfil : (s.readingLists.filter (fun l => l.id = lid && l.user = u)).isEmpty = true := by
      rw [List.isEmpty_iff, List.filter_eq_nil_iff]
      intro l hl
      simp only [Bool.and_eq_true, decide_eq_true_eq, not_and]
      exact hnotowner l hl
    unfold add_to_reading_list
    rw [if_neg hb']
    simp only [hfil, if_pos]
  · intro l hl hid huser
    have hfil : ¬(s.readingLists.filter (fun l => l.id = lid && l.user = u)).isEmpty = true :=
      filter_not_isEmpty_of_mem hl (by simp [hid, huser])
    have heq : add_to_reading_list s nl u bid ⟨some lid, none⟩ =
        (.redirectToBook bid,
         { s with readingLists := s.readingLists.map (fun l =>
             if l.id = lid && l.user = u then addBookToList l bid else l) }) := by
      unfold add_to_reading_list
      rw [if_neg hb']
      simp only [if_neg hfil]
    refine ⟨by rw [heq], ?_, mem_addBookToList l bid⟩
    rw [heq]
    have hmap := List.mem_map_of_mem
      (f := fun l => if l.id = lid && l.user = u then addBookToList l bid else l) hl
    simpa [hid, huser] using hmap
  · unfold add_to_reading_list
    rw [if_neg hb']
  · unfold add_to_reading_list
    rw [if_neg hb']
    simp

/-- Witness for C5: user 1 targets list 5 owned by user 9 and gets a 404
with the store unchanged; supplying neither field changes nothing and
redirects to book 1's page. -/
theorem C5_add_to_list_spec_witness :
    add_to_reading_list exStoreC5 6 1 1 ⟨some 5, none⟩ = (.notFoundList, exStoreC5) ∧
    add_to_reading_list exStoreC5 6 1 1 ⟨none, none⟩ = (.redirectToBook 1, exStoreC5) := by
  have h := C5_add_to_list_spec exStoreC5 6 1 1 5 ⟨exBook, by simp [exStoreC5], rfl⟩
  exact ⟨h.1 (by decide), h.2.2.1⟩

/-- Claim C6: adding a book to a newly named list creates one list, owned by
the caller, containing exactly that one book, and redirects to the book's
detail page. -/
theorem C6_new_list_spec (s : Store) (nl : ListId) (u : UserId) (bid : BookId)
    (n : String) (hbook : ∃ bk ∈ s.books, bk.id = bid) (hn : n ≠ "") :
    add_to_reading_list s nl u bid ⟨none, some n⟩ =
      (.redirectToBook bid,
       { s with readingLists := s.readingLists ++ [⟨nl, n, u, [bid], true⟩] }) := by
  obtain ⟨bk, hbk, hbkid⟩ := hbook
  have hb' : ¬(s.books.filter (fun b => b.id = bid)).isEmpty = true :=
    filter_not_isEmpty_of_mem hbk (by simp [hbkid])
  unfold add_to_reading_list
  rw [if_neg hb']
  simp [hn]

/-- Witness for C6: user 1 adds book 1 to a fresh list named "My List". -/
theorem C6_new_list_spec_witness :
    add_to_reading_list exStoreC5 6 1 1 ⟨none, some "My List"⟩ =
      (.redirectToBook 1,
       { exStoreC5 with readingLists :=
           exStoreC5.readingLists ++ [⟨6, "My List", 1, [1], true⟩] }) :=
  C6_new_list_spec exStoreC5 6 1 1 "My List" ⟨exBook, by simp [exStoreC5], rfl⟩ (by decide)

lemma mem_doomed_of (s : Store) (aid : AuthorId) {bk : Book} (hbk : bk ∈ s.books)
    (hauth : bk.author = aid) :
    bk.id ∈ (s.books.filter (fun b => b.author = aid)).map Book.id :=
  List.mem_map.mpr ⟨bk, List.mem_filter.mpr ⟨hbk, by simp [hauth]⟩, rfl⟩

lemma delete_author_noDangling (s : Store) (aid : AuthorId) (h : noDangling s) :
    noDangling (delete_author s aid) := by
  obtain ⟨ha, hrb, hru, hlu, hlb⟩ := h
  simp only [delete_author, noDangling]
  refine ⟨?_, ?_, ?_, ?_, ?_⟩
  · intro b hb
    have hm := List.mem_filter.mp hb
    have hb0 := hm.1
    have hbna : ¬b.author = aid := by simpa using hm.2
    obtain ⟨a, ha0, haid⟩ := ha b hb0
    refine ⟨a, List.mem_filter.mpr ⟨ha0, ?_⟩, haid⟩
    simp [haid, hbna]
  · intro r hr
    have hm := List.mem_filter.mp hr
    have hr0 := hm.1
    have hnb : r.book ∉ (s.books.filter (fun b => b.author = aid)).map Book.id := by
      simpa using hm.2
    obtain ⟨b, hb0, hbid⟩ := hrb r hr0
    have hbna : ¬b.author = aid := by
      intro hba
      exact hnb (hbid ▸ mem_doomed_of s aid hb0 hba)
    exact ⟨b, List.mem_filter.mpr ⟨hb0, by simp [hbna]⟩, hbid⟩
  · intro r hr
    exact hru r (List.mem_filter.mp hr).1
  · intro l hl
    obtain ⟨l0, hl0, rfl⟩ := List.mem_map.mp hl
    exact hlu l0 hl0
  · intro l hl bid hbid
    obtain ⟨l0, hl0, rfl⟩ := List.mem_map.mp hl
    have hm := List.mem_filter.mp hbid
    have hin := hm.1
    have hnb : bid ∉ (s.books.filter (fun b => b.author = aid)).map Book.id := by
      simpa using hm.2
    obtain ⟨b, hb0, hbid'⟩ := hlb l0 hl0 bid hin
    have hbna : ¬b.author = aid := by
      intro hba
      exact hnb (hbid' ▸ mem_doomed_of s aid hb0 hba)
    exact ⟨b, List.mem_filter.mpr ⟨hb0, by simp [hbna]⟩, hbid'⟩

lemma delete_book_noDangling (s : Store) (bid : BookId) (h : noDangling s) :
    noDangling (delete_book s bid) := by
  obtain ⟨ha, hrb, hru, hlu, hlb⟩ := h
  simp only [delete_book, noDangling]
  refine ⟨?_, ?_, ?_, ?_, ?_⟩
  · intro b hb
    exact ha b (List.mem_filter.mp hb).1
  · intro r hr
    have hm := List.mem_filter.mp hr
    have hrne : ¬r.book = bid := by simpa using hm.2
    obtain ⟨b, hb0, hbid⟩ := hrb r hm.1
    refine ⟨b, List.mem_filter.mpr ⟨hb0, ?_⟩, hbid⟩
    simp [hbid, hrne]
  · intro r hr
    exact hru r (List.mem_filter.mp hr).1
  · intro l hl
    obtain ⟨l0, hl0, rfl⟩ := List.mem_map.mp hl
    exact hlu l0 hl0
  · intro l hl b hb
    obtain ⟨l0, hl0, rfl⟩ := List.mem_map.mp hl
    have hm := List.mem_filter.mp hb
    have hbne : ¬b = bid := by simpa using hm.2
    obtain ⟨bk, hbk0, hbkid⟩ := hlb l0 hl0 b hm.1
    refine ⟨bk, List.mem_filter.mpr ⟨hbk0, ?_⟩, hbkid⟩
    simp [hbkid, hbne]

lemma delete_user_noDangling (s : Store) (u : UserId) (h : noDangling s) :
    noDangling (delete_user s u) := by
  obtain ⟨ha, hrb, hru, hlu, hlb⟩ := h
  simp only [delete_user, noDangling]
  refine ⟨?_, ?_, ?_, ?_, ?_⟩
  · intro b hb
    exact ha b hb
  · intro r hr
    exact hrb r (List.mem_filter.mp hr).1
  · intro r hr
    have hm := List.mem_filter.mp hr
    have hne : ¬r.user = u := by simpa using hm.2
    exact List.mem_filter.mpr ⟨hru r hm.1, by simp [hne]⟩
  · intro l hl
    have hm := List.mem_filter.mp hl
    have hne : ¬l.user = u := by simpa using hm.2
    exact List.mem_filter.mpr ⟨hlu l hm.1, by simp [hne]⟩
  · intro l hl b hb
    exact hlb l (List.mem_filter.mp hl).1 b hb

lemma add_review_noDangling (s : Store) (nid : ReviewId) (u : UserId) (bid : BookId)
    (d : ReviewFormData) (h : noDangling s) (hu : u ∈ s.users) :
    noDangling (add_review s nid u bid d).2 := by
  obtain ⟨ha, hrb, hru, hlu, hlb⟩ := h
  unfold add_review
  split_ifs with h1 h2 h3
  · exact ⟨ha, hrb, hru, hlu, hlb⟩
  · exact ⟨ha, hrb, hru, hlu, hlb⟩
  · obtain ⟨bk, hbk, hbkid⟩ := exists_book_of_filter_ne s bid h1
    refine ⟨ha, ?_, ?_, hlu, hlb⟩
    · intro r hr
      rcases List.mem_append.mp hr with hr0 | hr1
      · exact hrb r hr0
      · simp only [List.mem_singleton] at hr1
        subst hr1
        exact ⟨bk, hbk, hbkid⟩
    · intro r hr
      rcases List.mem_append.mp hr with hr0 | hr1
      · exact hru r hr0
      · simp only [List.mem_singleton] at hr1
        subst hr1
        exact hu
  · exact ⟨ha, hrb, hru, hlu, hlb⟩

lemma add_to_reading_list_noDangling (s : Store) (nl : ListId) (u : UserId)
    (bid : BookId) (req : AddToListRequest) (h : noDangling s) (hu : u ∈ s.users) :
    noDangling (add_to_reading_list s nl u bid req).2 := by
  obtain ⟨ha, hrb, hru, hlu, hlb⟩ := h
  unfold add_to_reading_list
  split_ifs with h1
  · exact ⟨ha, hrb, hru, hlu, hlb⟩
  · obtain ⟨bk, hbk, hbkid⟩ := exists_book_of_filter_ne s bid h1
    match req with
    | ⟨some lid, _⟩ =>
        simp only
        split_ifs with h2
        · exact ⟨ha, hrb, hru, hlu, hlb⟩
        · refine ⟨ha, hrb, hru, ?_, ?_⟩
          · intro l hl
            obtain ⟨l0, hl0, rfl⟩ := List.mem_map.mp hl
            have : (if l0.id = lid && l0.user = u then addBookToList l0 bid else l0).user
                = l0.user := by
              split_ifs with hc
              · unfold addBookToList
                split_ifs <;> rfl
              · rfl
            rw [this]
            exact hlu l0 hl0
          · intro l hl b hb
            obtain ⟨l0, hl0, rfl⟩ := List.mem_map.mp hl
            by_cases hc : (l0.id = lid && l0.user = u) = true
            · rw [if_pos hc] at hb
              unfold addBookToList at hb
              split_ifs at hb with hmem
              · exact hlb l0 hl0 b hb
              · rcases List.mem_append.mp hb with hb0 | hb1
                · exact hlb l0 hl0 b hb0
                · simp only [List.mem_singleton] at hb1
                  subst hb1
                  exact ⟨bk, hbk, hbkid⟩
            · rw [if_neg hc] at hb
              exact hlb l0 hl0 b hb
    | ⟨none, some n⟩ =>
        simp only
        split_ifs with h2
        · exact ⟨ha, hrb, hru, hlu, hlb⟩
        · refine ⟨ha, hrb, hru, ?_, ?_⟩
          · intro l hl
            rcases List.mem_append.mp hl with hl0 | hl1
            · exact hlu l hl0
            · simp only [List.mem_singleton] at hl1
              subst hl1
              exact hu
          · intro l hl b hb
            rcases List.mem_append.mp hl with hl0 | hl1
            · exact hlb l hl0 b hb
            · simp only [List.mem_singleton] at hl1
              subst hl1
              simp only [List.mem_singleton] at hb
              subst hb
              exact ⟨bk, hbk, hbkid⟩
    | ⟨none, none⟩ =>
        exact ⟨ha, hrb, hru, hlu, hlb⟩

/-- Claim C7: deleting an author removes every book referencing it, deleting
a book or a user removes every review referencing it, deleting a user
removes every reading list they own, and every store operation (the three
cascade deletes, review submission, and adding to a reading list by an
existing user) preserves the absence of dangling foreign-key references. -/
theorem C7_cascade_delete_spec (s : Store) (aid : AuthorId) (bid : BookId) (u : UserId)
    (hnd : noDangling s) (hu : u ∈ s.users) :
    (∀ bk ∈ (delete_author s aid).books, bk.author ≠ aid) ∧
    (∀ r ∈ (delete_book s bid).reviews, r.book ≠ bid) ∧
    (∀ r ∈ (delete_user s u).reviews, r.user ≠ u) ∧
    (∀ l ∈ (delete_user s u).readingLists, l.user ≠ u) ∧
    noDangling (delete_author s aid) ∧
    noDangling (delete_book s bid) ∧
    noDangling (delete_user s u) ∧
    (∀ nid d, noDangling (add_review s nid u bid d).2) ∧
    (∀ nl req, noDangling (add_to_reading_list s nl u bid req).2) := by
  refine ⟨?_, ?_, ?_, ?_, delete_author_noDangling s aid hnd,
    delete_book_noDangling s bid hnd, delete_user_noDangling s u hnd,
    fun nid d => add_review_noDangling s nid u bid d hnd hu,
    fun nl req => add_to_reading_list_noDangling s nl u bid req hnd hu⟩
  · intro bk hbk
    simp only [delete_author] at hbk
    have := (List.mem_filter.mp hbk).2
    simpa using this
  · intro r hr
    simp only [delete_book] at hr
    have := (List.mem_filter.mp hr).2
    simpa using this
  · intro r hr
    simp only [delete_user] at hr
    have := (List.mem_filter.mp hr).2
    simpa using this
  · intro l hl
    simp only [delete_user] at hl
    have := (List.mem_filter.mp hl).2
    simpa using this

/-- Witness for C7 on a concrete populated store: the cascade deletes of
author 1 and of user 1 leave no dangling references. -/
theorem C7_cascade_delete_spec_witness :
    noDangling (delete_author exStore35 1) ∧ noDangling (delete_user exStore35 1) := by
  have h := C7_cascade_delete_spec exStore35 1 1 1 (by decide) (by decide)
  exact ⟨h.2.2.2.2.1, h.2.2.2.2.2.2.1⟩

/-- Claim C9: the review form only accepts ratings in `{1,2,3,4,5}`; when
every stored rating of a book lies in that set and the book has at least
one review, `average_rating` is in the closed interval `[1, 5]` and never
0, so a 0 result occurs exactly for books with no reviews. -/
theorem C9_rating_range_spec (s : Store) (b : BookId) (d : ReviewFormData)
    (hall : ∀ x ∈ bookRatings s b, x ∈ RATING_CHOICES) :
    (reviewFormValid d = true → d.rating ∈ RATING_CHOICES) ∧
    (bookRatings s b ≠ [] →
      1 ≤ average_rating s b ∧ average_rating s b ≤ 5 ∧ average_rating s b ≠ 0) ∧
    (average_rating s b = 0 ↔ bookRatings s b = []) := by
  have hbounds : bookRatings s b ≠ [] →
      1 ≤ average_rating s b ∧ average_rating s b ≤ 5 := by
    intro hne
    have hlen : 0 < (bookRatings s b).length := List.length_pos.mpr hne
    have hlo : ∀ x ∈ bookRatings s b, (1 : ℤ) ≤ x := by
      intro x hx
      have := hall x hx
      simp [RATING_CHOICES] at this
      rcases this with rfl | rfl | rfl | rfl | rfl <;> norm_num
    have hhi : ∀ x ∈ bookRatings s b, x ≤ (5 : ℤ) := by
      intro x hx
      have := hall x hx
      simp [RATING_CHOICES] at this
      rcases this with rfl | rfl | rfl | rfl | rfl <;> norm_num
    have hsum_lo := List.card_nsmul_le_sum (bookRatings s b) 1 hlo
    have hsum_hi := List.sum_le_card_nsmul (bookRatings s b) 5 hhi
    rw [nsmul_eq_mul] at hsum_lo hsum_hi
    have hlenQ : (0 : ℚ) < ((bookRatings s b).length : ℚ) := by exact_mod_cast hlen
    have hq1 : (1 : ℚ) ≤ ((bookRatings s b).sum : ℚ) / ((bookRatings s b).length : ℚ) := by
      rw [le_div_iff₀ hlenQ]
      have : ((bookRatings s b).length : ℚ) * 1 ≤ ((bookRatings s b).sum : ℚ) := by
        exact_mod_cast hsum_lo
      linarith
    have hq5 : ((bookRatings s b).sum : ℚ) / ((bookRatings s b).length : ℚ) ≤ 5 := by
      rw [div_le_iff₀ hlenQ]
      have : ((bookRatings s b).sum : ℚ) ≤ ((bookRatings s b).length : ℚ) * 5 := by
        exact_mod_cast hsum_hi
      linarith
    have hb2 := round2_bounds
      (((bookRatings s b).sum : ℚ) / ((bookRatings s b).length : ℚ)) 1 5
      (by exact_mod_cast hq1) (by exact_mod_cast hq5)
    rw [average_rating_eq s b hne]
    have e1 : ((1 : ℤ) : ℚ) = (1 : ℚ) := by norm_num
    have e5 : ((5 : ℤ) : ℚ) = (5 : ℚ) := by norm_num
    rw [e1, e5] at hb2
    exact hb2
  refine ⟨?_, fun hne => ⟨(hbounds hne).1, (hbounds hne).2, ?_⟩, ?_⟩
  · intro hv
    unfold reviewFormValid at hv
    simp at hv
    exact hv.1
  · intro h0
    have := (hbounds hne).1
    rw [h0] at this
    linarith
  · constructor
    · intro h0
      by_contra hne
      have := (hbounds hne).1
      rw [h0] at this
      linarith
    · intro hne
      unfold average_rating
      rw [if_pos (by simp [hne])]

/-- Witness for C9: in the store with ratings `[3, 5]` all stored ratings
are admissible, the average lies in `[1, 5]` and is non-zero, and a
concrete valid form has its rating among the choices. -/
theorem C9_rating_range_spec_witness :
    (5 : ℤ) ∈ RATING_CHOICES ∧
    (1 ≤ average_rating exStore35 1 ∧ average_rating exStore35 1 ≤ 5 ∧
      average_rating exStore35 1 ≠ 0) := by
  have h := C9_rating_range_spec exStore35 1 ⟨5, "solid"⟩ (by decide)
  exact ⟨h.1 (by decide), h.2.1 (by decide)⟩

end BookHub
